import Mathlib

/-!
Verification of the Monty Hall simulator core (game logic, batch engine,
statistics, CSV export) against its natural-language specification.

The JavaScript sources are shallowly embedded: JS numbers used as door
indices and counters become integers / naturals, running win rates become
rationals, the floating-point statistics become reals, `null`-able fields
become `Option`, and the two `Math.random()` draws a game consumes (the
car-door draw `floor(random()*3)` and the host reveal index
`floor(random()*len)`) become explicit parameters `c : Fin 3` and `k : ℕ`
(the source always has `k < len`; theorems about the host reveal carry that
bound as a hypothesis).
-/

namespace MontyHall

/-! ### Game logic (src/js/game.js) -/

/-- State of one Monty Hall game (class `MontyHallGame`).  Fields that are
`null` until assigned are `Option`-typed; phase strings are the source's. -/
structure MontyHallGame where
  carDoor : ℤ
  playerChoice : Option ℤ
  hostRevealedDoor : Option ℤ
  finalChoice : Option ℤ
  gamePhase : String
  playerStrategy : Option String
  won : Option Bool
deriving Repr, DecidableEq

/-- reset(): a fresh game; the car door draw `Math.floor(Math.random()*3)`
is modelled by the parameter `c : Fin 3`. -/
def reset (c : Fin 3) : MontyHallGame :=
  { carDoor := (c : ℤ)
    playerChoice := none
    hostRevealedDoor := none
    finalChoice := none
    gamePhase := "selecting"
    playerStrategy := none
    won := none }

/-- The `availableDoors` list built inside getHostRevealedDoor(): doors 0..2
that are neither the car door nor the player's chosen door. -/
def hostCandidates (carDoor : ℤ) (playerChoice : Option ℤ) : List ℤ :=
  ((List.range 3).map (fun i => (i : ℤ))).filter
    (fun i => decide (i ≠ carDoor) && decide (some i ≠ playerChoice))

/-- getHostRevealedDoor(): `availableDoors[Math.floor(Math.random()*len)]`,
the random index modelled by `k`.  An out-of-range `k` yields `none`
(an undefined array read); the source always draws `k < len`. -/
def getHostRevealedDoor (g : MontyHallGame) (k : ℕ) : Option ℤ :=
  (hostCandidates g.carDoor g.playerChoice).get? k

/-- selectDoor(doorIndex): rejected outside the selecting phase or for door
indices outside 0..2; otherwise records the choice, enters the "revealed"
phase and stores the host's revealed door (consuming the draw `k`). -/
def selectDoor (g : MontyHallGame) (doorIndex : ℤ) (k : ℕ) : Bool × MontyHallGame :=
  if g.gamePhase ≠ "selecting" ∨ doorIndex < 0 ∨ 2 < doorIndex then
    (false, g)
  else
    let g1 := { g with playerChoice := some doorIndex, gamePhase := "revealed" }
    (true, { g1 with hostRevealedDoor := getHostRevealedDoor g1 k })

/-- getRemainingDoor(): the first door 0..2 that is neither the player's
choice nor the host's revealed door (`null` if none; cannot occur in play). -/
def getRemainingDoor (g : MontyHallGame) : Option ℤ :=
  ((List.range 3).map (fun i => (i : ℤ))).find?
    (fun i => decide (some i ≠ g.playerChoice) && decide (some i ≠ g.hostRevealedDoor))

/-- makeChoice(strategy): rejected outside the "revealed" phase or for a
strategy other than "stay"/"switch"; otherwise fixes the final choice
(initial door for "stay", remaining door for "switch"), decides the win and
finishes the game. -/
def makeChoice (g : MontyHallGame) (strategy : String) : Bool × MontyHallGame :=
  if g.gamePhase ≠ "revealed" ∨ (strategy ≠ "stay" ∧ strategy ≠ "switch") then
    (false, g)
  else
    let g1 := { g with playerStrategy := some strategy, gamePhase := "choosing" }
    let fc := if strategy = "stay" then g1.playerChoice else getRemainingDoor g1
    (true, { g1 with finalChoice := fc
                     won := some (decide (fc = some g.carDoor))
                     gamePhase := "finished" })

/-! ### Batch engine (src/js/ui.js, class BatchSimulator) -/

/-- One trial record pushed by runGameChunk (its `gameNumber` is the loop
index inside the chunk, restarting at 0 for every chunk, as in the source). -/
structure GameRecord where
  gameNumber : ℕ
  strategy : String
  playerChoice : Option ℤ
  hostRevealedDoor : Option ℤ
  finalChoice : Option ℤ
  carDoor : ℤ
  won : Option Bool
deriving Repr, DecidableEq

/-- The body of runGameChunk's loop at index `i`: a fresh game, selectDoor(0),
the strategy choice, and the record built from the finished game's fields.
The game's two random draws are `c` and `k`. -/
def runOneGame (strategy : String) (i : ℕ) (c : Fin 3) (k : ℕ) : GameRecord :=
  let g2 := (makeChoice (selectDoor (reset c) 0 k).2 strategy).2
  { gameNumber := i
    strategy := strategy
    playerChoice := g2.playerChoice
    hostRevealedDoor := g2.hostRevealedDoor
    finalChoice := g2.finalChoice
    carDoor := g2.carDoor
    won := g2.won }

/-- runGameChunk(strategy, count): `count` games in order, game `i` drawing
its pair of randoms from the tape at its in-chunk index. -/
def runGameChunk (strategy : String) (count : ℕ) (rng : ℕ → Fin 3 × ℕ) : List GameRecord :=
  (List.range count).map (fun i => runOneGame strategy i (rng i).1 (rng i).2)

/-- `chunkResults.filter(game => game.won).length`: a record counts as won
exactly when its flag is `true` (`false` and `null` are falsy). -/
def countWon (games : List GameRecord) : ℕ :=
  (games.filter (fun g => decide (g.won = some true))).length

/-- An entry of `winRateHistory` (the source's field names: `wins`, not
`cumulativeWins`). -/
structure WinRatePoint where
  gameNumber : ℕ
  winRate : ℚ
  wins : ℕ
deriving Repr, DecidableEq

/-- The per-strategy results object of runStrategyBatch.  Its `winRate` field
is only assigned after the chunk loop; while the loop runs the model keeps
the field at 0 (the source object simply lacks it until then). -/
structure StrategyResults where
  played : ℕ
  won : ℕ
  games : List GameRecord
  winRateHistory : List WinRatePoint
  winRate : ℚ
deriving Repr, DecidableEq

def emptyStrategyResults : StrategyResults :=
  { played := 0, won := 0, games := [], winRateHistory := [], winRate := 0 }

/-- One iteration of runStrategyBatch's chunk loop at chunk index `j` (chunk
start `i = j * chunkSize`): run `min(chunkSize, gameCount - i)` games, merge
their records and counts, and push one running win-rate point taken from the
updated cumulative counts. -/
def mergeChunk (strategy : String) (gameCount chunkSize : ℕ) (rng : ℕ → Fin 3 × ℕ)
    (acc : StrategyResults) (j : ℕ) : StrategyResults :=
  let i := j * chunkSize
  let chunkResults := runGameChunk strategy (min chunkSize (gameCount - i)) (fun t => rng (i + t))
  let played := acc.played + chunkResults.length
  let won := acc.won + countWon chunkResults
  { played := played
    won := won
    games := acc.games ++ chunkResults
    winRateHistory := acc.winRateHistory ++
      [{ gameNumber := played, winRate := (won : ℚ) / (played : ℚ), wins := won }]
    winRate := acc.winRate }

/-- Number of iterations the guard `i < gameCount` of the chunk loop
`for (i = 0; i < gameCount; i += chunkSize)` allows: `⌈gameCount/chunkSize⌉`.
The source loop does not terminate for chunkSize = 0, so the model is
faithful only for positive chunkSize and every theorem assumes that. -/
def numChunks (gameCount chunkSize : ℕ) : ℕ := (gameCount + chunkSize - 1) / chunkSize

/-- The chunk loop of runStrategyBatch.  `j` is the next chunk index,
`running j` is the value of `this.isRunning` read at the check before chunk
`j` (stopSimulation() turns it false: the break), and `fuel` is the number of
iterations the loop guard still allows, initially `numChunks`. -/
def runBatchChunks (strategy : String) (gameCount chunkSize : ℕ) (rng : ℕ → Fin 3 × ℕ)
    (running : ℕ → Bool) : ℕ → ℕ → StrategyResults → StrategyResults
  | 0, _, acc => acc
  | fuel + 1, j, acc =>
    if running j then
      runBatchChunks strategy gameCount chunkSize rng running fuel (j + 1)
        (mergeChunk strategy gameCount chunkSize rng acc j)
    else acc

/-- runStrategyBatch(strategy, gameCount, speed, chunkSize): the chunk loop
from an empty accumulator, then the final `winRate = won / played`
assignment (the speed delay only schedules chunks and carries no data). -/
def runStrategyBatch (strategy : String) (gameCount chunkSize : ℕ)
    (rng : ℕ → Fin 3 × ℕ) (running : ℕ → Bool) : StrategyResults :=
  let s := runBatchChunks strategy gameCount chunkSize rng running
    (numChunks gameCount chunkSize) 0 emptyStrategyResults
  { s with winRate := (s.won : ℚ) / (s.played : ℚ) }

/-- The simulator flag the cancellation protocol uses. -/
structure BatchSimulator where
  isRunning : Bool
deriving Repr, DecidableEq

/-- stopSimulation(): clears the running flag; the chunk loop observes that
at its next boundary check, never inside a chunk. -/
def stopSimulation (b : BatchSimulator) : BatchSimulator := { b with isRunning := false }

/-- The `results.data` object: a string-keyed insertion-ordered map
(`results.data[strategy] = strategyResults` replaces an existing key or
appends a new one). -/
def dataUpdate (d : List (String × StrategyResults)) (s : String) (v : StrategyResults) :
    List (String × StrategyResults) :=
  match d with
  | [] => [(s, v)]
  | (key, w) :: rest =>
    if key = s then (s, v) :: rest else (key, w) :: dataUpdate rest s v

def dataLookup (d : List (String × StrategyResults)) (s : String) : Option StrategyResults :=
  (d.find? (fun kv => decide (kv.1 = s))).map (fun kv => kv.2)

/-- The results object runSimulation assembles.  Wall-clock fields
(startTime/endTime/duration) and the derived `convergence` and `statistics`
fields are not modelled: no claimed count depends on them, and the
confidence-interval formula calculateStatistics() stores is modelled
separately as `uiConfidenceInterval`. -/
structure SimulationResults where
  totalGames : ℤ
  strategies : List String
  data : List (String × StrategyResults)
deriving Repr, DecidableEq

/-- runSimulation(options): throw if a run is already active (the only
validation in the source); otherwise split totalGames over the listed
strategies by floor division (`Math.floor`, negative results give an empty
loop, modelled by `Int.toNat`) and run one strategy batch per listed
strategy, writing it into `results.data` over the initial stay/switch
entries.  `rng idx` is the random tape of the batch at position `idx`. -/
def runSimulation (isRunning : Bool) (totalGames : ℤ) (strategies : List String)
    (chunkSize : ℕ) (rng : ℕ → ℕ → Fin 3 × ℕ) (running : ℕ → Bool) :
    Except String SimulationResults :=
  if isRunning then
    .error "Simulation already running. Stop current simulation first."
  else
    let gamesPerStrategy := (Int.fdiv totalGames (strategies.length : ℤ)).toNat
    let finalData := strategies.enum.foldl
      (fun d si =>
        dataUpdate d si.2 (runStrategyBatch si.2 gamesPerStrategy chunkSize (rng si.1) running))
      [("stay", emptyStrategyResults), ("switch", emptyStrategyResults)]
    .ok { totalGames := totalGames, strategies := strategies, data := finalData }

/-! ### CSV export (BatchSimulator.exportToCsv, src/js/ui.js) -/

/-- The fixed header line of exportToCsv(). -/
def csvHeader : String :=
  "Game,Strategy,PlayerChoice,HostRevealed,FinalChoice,CarDoor,Won,WinRate"

/-- One CSV data row, with the WinRate column kept as the exact rational the
source formats with toFixed(4). -/
structure CsvRow where
  game : ℕ
  strategy : String
  playerChoice : Option ℤ
  hostRevealed : Option ℤ
  finalChoice : Option ℤ
  carDoor : ℤ
  won : Option Bool
  winRate : ℚ
deriving Repr, DecidableEq

/-- The rows exportToCsv() emits for one strategy: one per stored game, in
stored order, with
`WinRate = data.winRateHistory.find(h => h.gameNumber >= index + 1)?.winRate || 0`
(`index` is the 0-based position of the game in `data.games`). -/
def exportRowsForStrategy (strategy : String) (data : StrategyResults) : List CsvRow :=
  data.games.enum.map (fun ig =>
    { game := ig.2.gameNumber + 1
      strategy := strategy
      playerChoice := ig.2.playerChoice
      hostRevealed := ig.2.hostRevealedDoor
      finalChoice := ig.2.finalChoice
      carDoor := ig.2.carDoor
      won := ig.2.won
      winRate :=
        ((data.winRateHistory.find? (fun h => decide (ig.1 + 1 ≤ h.gameNumber))).map
          (fun h => h.winRate)).getD 0 })

/-- exportToCsv(results): the data rows, strategy after strategy in the order
of `results.strategies` (the header line is `csvHeader`).  Every listed
strategy of a produced result is present in `results.data`; a missing one
would be an undefined read in the source and is given the empty batch here. -/
def exportToCsv (results : SimulationResults) : List CsvRow :=
  results.strategies.flatMap (fun s =>
    exportRowsForStrategy s ((dataLookup results.data s).getD emptyStrategyResults))

/-! ### Statistics (src/js/statistics.js, and the confidence block of
BatchSimulator.calculateStatistics in src/js/ui.js) -/

/-- Result object of calculateConfidenceInterval(). -/
structure ConfidenceInterval where
  lower : ℝ
  upper : ℝ
  marginOfError : ℝ
  standardError : ℝ

/-- The spec's error taxonomy for the statistics layer.  The source functions
below contain no throw at all, so no code path ever produces one. -/
inductive StatsError where
  | insufficientSample
deriving Repr, DecidableEq

/-- getZScore(confidence): fixed table with default 1.96. -/
def getZScore (confidence : ℚ) : ℝ :=
  if confidence = 90 / 100 then 1.645
  else if confidence = 95 / 100 then 1.96
  else if confidence = 99 / 100 then 2.576
  else if confidence = 999 / 1000 then 3.291
  else 1.96

/-- The object calculateConfidenceInterval() returns: the Wald interval with
the bounds clipped to [0,1] by Math.max / Math.min. -/
noncomputable def calculateConfidenceIntervalVal (p : ℝ) (n : ℕ) (confidence : ℚ) :
    ConfidenceInterval :=
  let z := getZScore confidence
  let standardError := Real.sqrt ((p * (1 - p)) / (n : ℝ))
  let marginOfError := z * standardError
  { lower := max 0 (p - marginOfError)
    upper := min 1 (p + marginOfError)
    marginOfError := marginOfError
    standardError := standardError }

/-- calculateConfidenceInterval(p, n, confidence): the JS call channel is an
Except (a thrown error would be `.error`); the body has no throw and no
check on n, so it returns its value unconditionally. -/
noncomputable def calculateConfidenceInterval (p : ℝ) (n : ℕ) (confidence : ℚ) :
    Except StatsError ConfidenceInterval :=
  .ok (calculateConfidenceIntervalVal p n confidence)

open Classical in
/-- normalCDF(z): the source's polynomial approximation of the standard
normal CDF. -/
noncomputable def normalCDF (z : ℝ) : ℝ :=
  let t := 1 / (1 + 0.2316419 * |z|)
  let d := 0.3989423 * Real.exp (-z * z / 2)
  let prob := d * t * (0.3193815 + t * (-0.3565638 + t * (1.781478 + t * (-1.821256 + t * 1.330274))))
  if 0 < z then 1 - prob else prob

/-- Result object of performZTest(). -/
structure ZTestResult where
  zScore : ℝ
  pValue : ℝ
  significance : String
  rejectNull : Prop

open Classical in
/-- The object performZTest() returns: a two-tailed one-proportion z test
against expectedP. -/
noncomputable def performZTestVal (observedP : ℝ) (n : ℕ) (expectedP : ℝ) : ZTestResult :=
  let standardError := Real.sqrt ((expectedP * (1 - expectedP)) / (n : ℝ))
  let zScore := (observedP - expectedP) / standardError
  let pValue := 2 * (1 - normalCDF |zScore|)
  { zScore := zScore
    pValue := pValue
    significance := if pValue < 0.05 then "significant" else "not significant"
    rejectNull := pValue < 0.05 }

/-- performZTest(observedP, n, expectedP): like the confidence interval, the
body has no throw and no check on n. -/
noncomputable def performZTest (observedP : ℝ) (n : ℕ) (expectedP : ℝ) :
    Except StatsError ZTestResult :=
  .ok (performZTestVal observedP n expectedP)

/-- The per-strategy confidence object BatchSimulator.calculateStatistics()
stores into `stats.confidence[strategy]` (ui.js): the Wald interval at
z = 1.96 with the bounds NOT clipped. -/
structure UiConfidence where
  lower : ℝ
  upper : ℝ
  marginOfError : ℝ
  standardError : ℝ
  inTheoreticalRange : Prop

/-- The confidence block of calculateStatistics() for one strategy, with
`p = data.winRate` and `n = data.played`. -/
noncomputable def uiConfidenceInterval (p : ℝ) (n : ℕ) (theoretical : ℝ) : UiConfidence :=
  let standardError := Real.sqrt ((p * (1 - p)) / (n : ℝ))
  let marginOfError := 1.96 * standardError
  { lower := p - marginOfError
    upper := p + marginOfError
    marginOfError := marginOfError
    standardError := standardError
    inTheoreticalRange := p - marginOfError ≤ theoretical ∧ theoretical ≤ p + marginOfError }

/-- Aggregation invariant of a strategy-results accumulator: the counts match
the stored records and every history point is consistent with the prefix of
records it summarizes. -/
def BatchInv (acc : StrategyResults) : Prop :=
  acc.games.length = acc.played ∧
  acc.won = countWon acc.games ∧
  (∀ p ∈ acc.winRateHistory,
     0 < p.gameNumber ∧ p.gameNumber ≤ acc.played ∧
     p.wins = countWon (acc.games.take p.gameNumber) ∧
     p.winRate = (p.wins : ℚ) / (p.gameNumber : ℚ)) ∧
  List.Chain' (fun a b => a.gameNumber < b.gameNumber) acc.winRateHistory ∧
  ((acc.winRateHistory = [] ∧ acc.played = 0) ∨
   (∃ q, acc.winRateHistory.getLast? = some q ∧ q.gameNumber = acc.played))

/-- Every batch stored in a data map has as many stored records as its
played count (used to transport per-batch facts to assembled results). -/
def AllCounted (d : List (String × StrategyResults)) : Prop :=
  ∀ kv ∈ d, kv.2.games.length = kv.2.played

/-! ### Claims about the game logic -/

/-- C1: for every generated trial, under "switch" the player wins iff the
initial choice missed the car, under "stay" iff it hit the car; the final
choice is the initial choice under "stay" and the unique door distinct from
the initial choice and the host's reveal under "switch"; and the stored win
flag is exactly the comparison of the final choice with the car door. -/
theorem spec_c1_trial_outcome (c : Fin 3) (d : ℤ) (k : ℕ) (s : String)
    (hd : 0 ≤ d ∧ d ≤ 2)
    (hk : k < (hostCandidates (c : ℤ) (some d)).length)
    (hs : s = "stay" ∨ s = "switch") :
    (s = "switch" →
      (((makeChoice (selectDoor (reset c) d k).2 s).2.won = some true) ↔ d ≠ (c : ℤ))) ∧
    (s = "stay" →
      (((makeChoice (selectDoor (reset c) d k).2 s).2.won = some true) ↔ d = (c : ℤ))) ∧
    (s = "stay" → (makeChoice (selectDoor (reset c) d k).2 s).2.finalChoice = some d) ∧
    (s = "switch" → ∀ e : Fin 3,
       ((makeChoice (selectDoor (reset c) d k).2 s).2.finalChoice = some (e : ℤ) ↔
        ((e : ℤ) ≠ d ∧ some (e : ℤ) ≠ (selectDoor (reset c) d k).2.hostRevealedDoor))) ∧
    ((makeChoice (selectDoor (reset c) d k).2 s).2.won =
       some (decide ((makeChoice (selectDoor (reset c) d k).2 s).2.finalChoice = some (c : ℤ)))) := by
  obtain ⟨hd0, hd2⟩ := hd
  have hk2 : k < 2 := lt_of_lt_of_le hk (by fin_cases c <;> interval_cases d <;> decide)
  rcases hs with rfl | rfl <;> fin_cases c <;> interval_cases d <;>
    interval_cases k <;> revert hk <;> decide

/-- Witness for C1 at c = 0, d = 1, k = 0, s = "switch": with the car behind
door 0 and the player on door 1 the host reveals door 2, switching lands on
door 0 and wins. -/
theorem spec_c1_trial_outcome_witness :
    ("switch" = "switch" →
      (((makeChoice (selectDoor (reset 0) 1 0).2 "switch").2.won = some true) ↔ (1 : ℤ) ≠ ((0 : Fin 3) : ℤ))) ∧
    ("switch" = "stay" →
      (((makeChoice (selectDoor (reset 0) 1 0).2 "switch").2.won = some true) ↔ (1 : ℤ) = ((0 : Fin 3) : ℤ))) ∧
    ("switch" = "stay" → (makeChoice (selectDoor (reset 0) 1 0).2 "switch").2.finalChoice = some 1) ∧
    ("switch" = "switch" → ∀ e : Fin 3,
       ((makeChoice (selectDoor (reset 0) 1 0).2 "switch").2.finalChoice = some (e : ℤ) ↔
        ((e : ℤ) ≠ 1 ∧ some (e : ℤ) ≠ (selectDoor (reset 0) 1 0).2.hostRevealedDoor))) ∧
    ((makeChoice (selectDoor (reset 0) 1 0).2 "switch").2.won =
       some (decide ((makeChoice (selectDoor (reset 0) 1 0).2 "switch").2.finalChoice = some ((0 : Fin 3) : ℤ)))) :=
  spec_c1_trial_outcome 0 1 0 "switch" (by decide) (by decide) (Or.inr rfl)

/-- C2: for every generated trial the host's revealed door is defined and is
neither the car door nor the player's choice; it is the `k`-th entry of the
candidate list, so when the player hit the car the two equally likely index
draws range bijectively over the two distinct remaining doors (the uniform
tie-break), and when the player missed the car the candidate list has one
element and the reveal is the unique door that is neither car nor choice. -/
theorem spec_c2_host_reveal (c : Fin 3) (d : ℤ) (k : ℕ)
    (hd : 0 ≤ d ∧ d ≤ 2)
    (hk : k < (hostCandidates (c : ℤ) (some d)).length) :
    ((selectDoor (reset c) d k).2.hostRevealedDoor ≠ some (c : ℤ) ∧
     (selectDoor (reset c) d k).2.hostRevealedDoor ≠ some d ∧
     (selectDoor (reset c) d k).2.hostRevealedDoor ≠ none) ∧
    ((selectDoor (reset c) d k).2.hostRevealedDoor = (hostCandidates (c : ℤ) (some d)).get? k) ∧
    (d = (c : ℤ) →
       (hostCandidates (c : ℤ) (some d)).length = 2 ∧
       (hostCandidates (c : ℤ) (some d)).Nodup ∧
       (∀ e : Fin 3, ((e : ℤ) ∈ hostCandidates (c : ℤ) (some d) ↔ (e : ℤ) ≠ (c : ℤ)))) ∧
    (d ≠ (c : ℤ) →
       (hostCandidates (c : ℤ) (some d)).length = 1 ∧
       (∀ e : Fin 3,
          ((selectDoor (reset c) d k).2.hostRevealedDoor = some (e : ℤ) ↔
           ((e : ℤ) ≠ (c : ℤ) ∧ (e : ℤ) ≠ d)))) := by
  obtain ⟨hd0, hd2⟩ := hd
  have hk2 : k < 2 := lt_of_lt_of_le hk (by fin_cases c <;> interval_cases d <;> decide)
  fin_cases c <;> interval_cases d <;> interval_cases k <;> revert hk <;> decide

/-- Witness for C2 at c = 0, d = 0, k = 1: the player hit the car, both doors
1 and 2 are candidates, and draw index 1 reveals door 2. -/
theorem spec_c2_host_reveal_witness :
    (((selectDoor (reset 0) 0 1).2.hostRevealedDoor ≠ some ((0 : Fin 3) : ℤ) ∧
      (selectDoor (reset 0) 0 1).2.hostRevealedDoor ≠ some 0 ∧
      (selectDoor (reset 0) 0 1).2.hostRevealedDoor ≠ none)) ∧
    ((selectDoor (reset 0) 0 1).2.hostRevealedDoor = (hostCandidates ((0 : Fin 3) : ℤ) (some 0)).get? 1) ∧
    ((0 : ℤ) = ((0 : Fin 3) : ℤ) →
       (hostCandidates ((0 : Fin 3) : ℤ) (some 0)).length = 2 ∧
       (hostCandidates ((0 : Fin 3) : ℤ) (some 0)).Nodup ∧
       (∀ e : Fin 3, ((e : ℤ) ∈ hostCandidates ((0 : Fin 3) : ℤ) (some 0) ↔ (e : ℤ) ≠ ((0 : Fin 3) : ℤ)))) ∧
    ((0 : ℤ) ≠ ((0 : Fin 3) : ℤ) →
       (hostCandidates ((0 : Fin 3) : ℤ) (some 0)).length = 1 ∧
       (∀ e : Fin 3,
          ((selectDoor (reset 0) 0 1).2.hostRevealedDoor = some (e : ℤ) ↔
           ((e : ℤ) ≠ ((0 : Fin 3) : ℤ) ∧ (e : ℤ) ≠ 0)))) :=
  spec_c2_host_reveal 0 0 1 (by decide) (by decide)

/-- C10: a rejected selectDoor (wrong phase or door index outside 0..2) or a
rejected makeChoice (wrong phase or unknown strategy) returns false and
leaves every field of the game state unchanged. -/
theorem spec_c10_rejected_call_noop (g : MontyHallGame) (d : ℤ) (k : ℕ) (s : String) :
    (g.gamePhase ≠ "selecting" ∨ d < 0 ∨ 2 < d → selectDoor g d k = (false, g)) ∧
    (g.gamePhase ≠ "revealed" ∨ (s ≠ "stay" ∧ s ≠ "switch") → makeChoice g s = (false, g)) := by
  constructor
  · intro h
    unfold selectDoor
    rw [if_pos h]
  · intro h
    unfold makeChoice
    rw [if_pos h]

/-- Witness for C10: door index -1 is rejected in the selecting phase, and an
unknown strategy is rejected; both leave the fresh game state untouched. -/
theorem spec_c10_rejected_call_noop_witness :
    selectDoor (reset 0) (-1) 0 = (false, reset 0) ∧
    makeChoice (reset 0) "banana" = (false, reset 0) :=
  ⟨(spec_c10_rejected_call_noop (reset 0) (-1) 0 "banana").1 (Or.inr (Or.inl (by decide))),
   (spec_c10_rejected_call_noop (reset 0) (-1) 0 "banana").2 (Or.inl (by decide))⟩

/-! ### Helper lemmas about the chunk loop -/

theorem countWon_append (a b : List GameRecord) :
    countWon (a ++ b) = countWon a + countWon b := by
  simp [countWon, List.filter_append]

theorem runGameChunk_length (strategy : String) (n : ℕ) (rng : ℕ → Fin 3 × ℕ) :
    (runGameChunk strategy n rng).length = n := by
  simp [runGameChunk]

theorem mul_lt_of_lt_numChunks {g cs j : ℕ} (hcs : 0 < cs)
    (hj : j < numChunks g cs) : j * cs < g := by
  simp only [numChunks] at hj
  have h := (Nat.le_div_iff_mul_le hcs).mp (Nat.succ_le_of_lt hj)
  have h2 : Nat.succ j * cs = j * cs + cs := Nat.succ_mul j cs
  omega

theorem le_numChunks_mul {g cs : ℕ} (hcs : 0 < cs) : g ≤ numChunks g cs * cs := by
  have h := Nat.div_add_mod (g + cs - 1) cs
  have h2 := Nat.mod_lt (g + cs - 1) hcs
  simp only [numChunks]
  rw [Nat.mul_comm]
  omega

theorem mergeChunk_played (strategy : String) (g cs : ℕ) (rng : ℕ → Fin 3 × ℕ)
    (acc : StrategyResults) (j : ℕ) :
    (mergeChunk strategy g cs rng acc j).played = acc.played + min cs (g - j * cs) := by
  simp [mergeChunk, runGameChunk_length]

theorem batchInv_empty : BatchInv emptyStrategyResults := by
  refine ⟨rfl, rfl, ?_, ?_, Or.inl ⟨rfl, rfl⟩⟩
  · intro p hp
    simp [emptyStrategyResults] at hp
  · simp [emptyStrategyResults]

theorem batchInv_step (acc : StrategyResults) (L : List GameRecord) (hLpos : 0 < L.length)
    (hinv : BatchInv acc) :
    BatchInv { played := acc.played + L.length
               won := acc.won + countWon L
               games := acc.games ++ L
               winRateHistory := acc.winRateHistory ++
                 [{ gameNumber := acc.played + L.length
                    winRate := ((acc.won + countWon L : ℕ) : ℚ) / ((acc.played + L.length : ℕ) : ℚ)
                    wins := acc.won + countWon L }]
               winRate := acc.winRate } := by
  obtain ⟨hlen, hwon, hpts, hchain, hlast⟩ := hinv
  unfold BatchInv
  dsimp only
  refine ⟨?_, ?_, ?_, ?_, ?_⟩
  · simp [List.length_append, hlen]
  · simp [countWon_append, hwon]
  · intro p hp
    rcases List.mem_append.mp hp with hp | hp
    · obtain ⟨h1, h2, h3, h4⟩ := hpts p hp
      refine ⟨h1, by omega, ?_, h4⟩
      rw [List.take_append_of_le_length (by omega), h3]
    · simp only [List.mem_singleton] at hp
      subst hp
      dsimp only
      refine ⟨by omega, le_refl _, ?_, rfl⟩
      have hfull : acc.played + L.length = (acc.games ++ L).length := by
        simp [List.length_append, hlen]
      rw [hfull, List.take_length, countWon_append, hwon]
  · rw [List.chain'_append]
    refine ⟨hchain, List.chain'_singleton _, ?_⟩
    intro x hx y hy
    simp only [List.head?_cons, Option.mem_def, Option.some.injEq] at hy
    subst hy
    rcases hlast with ⟨hnil, _⟩ | ⟨q, hq, hqg⟩
    · rw [hnil] at hx
      simp at hx
    · rw [hq] at hx
      simp only [Option.mem_def, Option.some.injEq] at hx
      subst hx
      obtain ⟨h1, h2, _, _⟩ := hpts q (List.mem_of_getLast?_eq_some hq)
      dsimp only
      omega
  · exact Or.inr ⟨_, List.getLast?_concat _, rfl⟩

theorem batchInv_mergeChunk (strategy : String) (g cs : ℕ) (rng : ℕ → Fin 3 × ℕ)
    (acc : StrategyResults) (j : ℕ) (hcs : 0 < cs) (hj : j * cs < g)
    (hinv : BatchInv acc) : BatchInv (mergeChunk strategy g cs rng acc j) := by
  have hLpos : 0 < (runGameChunk strategy (min cs (g - j * cs)) (fun t => rng (j * cs + t))).length := by
    rw [runGameChunk_length]
    omega
  simpa [mergeChunk] using batchInv_step acc _ hLpos ⟨hinv.1, hinv.2.1, hinv.2.2.1, hinv.2.2.2.1, hinv.2.2.2.2⟩

theorem batchInv_runBatchChunks (strategy : String) (g cs : ℕ) (rng : ℕ → Fin 3 × ℕ)
    (running : ℕ → Bool) (hcs : 0 < cs) :
    ∀ fuel j acc, fuel + j ≤ numChunks g cs → BatchInv acc →
      BatchInv (runBatchChunks strategy g cs rng running fuel j acc) := by
  intro fuel
  induction fuel with
  | zero =>
    intro j acc _ hinv
    simpa [runBatchChunks] using hinv
  | succ n ih =>
    intro j acc hle hinv
    simp only [runBatchChunks]
    by_cases h : running j = true
    · rw [if_pos h]
      exact ih (j + 1) _ (by omega)
        (batchInv_mergeChunk strategy g cs rng acc j hcs
          (mul_lt_of_lt_numChunks hcs (by omega)) hinv)
    · rw [if_neg h]
      exact hinv

theorem runStrategyBatch_inv (strategy : String) (g cs : ℕ) (rng : ℕ → Fin 3 × ℕ)
    (running : ℕ → Bool) (hcs : 0 < cs) :
    BatchInv (runStrategyBatch strategy g cs rng running) :=
  batchInv_runBatchChunks strategy g cs rng running hcs (numChunks g cs) 0
    emptyStrategyResults (by omega) batchInv_empty

theorem runBatchChunks_played_stopped (strategy : String) (g cs : ℕ) (rng : ℕ → Fin 3 × ℕ)
    (k : ℕ) (hcs : 0 < cs) :
    ∀ fuel j acc, fuel + j = numChunks g cs → j ≤ k → acc.played = min (j * cs) g →
      (runBatchChunks strategy g cs rng (fun t => decide (t < k)) fuel j acc).played
        = min (k * cs) g := by
  intro fuel
  induction fuel with
  | zero =>
    intro j acc hfj hjk hacc
    have hj : j = numChunks g cs := by omega
    subst hj
    have h1 : g ≤ numChunks g cs * cs := le_numChunks_mul hcs
    have h2 : numChunks g cs * cs ≤ k * cs := Nat.mul_le_mul_right cs (by omega)
    simp only [runBatchChunks]
    omega
  | succ n ih =>
    intro j acc hfj hjk hacc
    simp only [runBatchChunks]
    by_cases h : j < k
    · rw [if_pos (by simpa using h)]
      apply ih (j + 1) _ (by omega) h
      rw [mergeChunk_played]
      have h3 : (j + 1) * cs = j * cs + cs := by ring
      have h4 : j * cs < g := mul_lt_of_lt_numChunks hcs (by omega)
      omega
    · rw [if_neg (by simpa using h)]
      have hjk2 : j = k := le_antisymm hjk (not_lt.mp h)
      subst hjk2
      exact hacc

theorem runBatchChunks_hist_length (strategy : String) (g cs : ℕ) (rng : ℕ → Fin 3 × ℕ) :
    ∀ fuel j acc,
      (runBatchChunks strategy g cs rng (fun _ => true) fuel j acc).winRateHistory.length
        = acc.winRateHistory.length + fuel := by
  intro fuel
  induction fuel with
  | zero =>
    intro j acc
    simp [runBatchChunks]
  | succ n ih =>
    intro j acc
    simp only [runBatchChunks, eq_self_iff_true, if_true]
    rw [ih]
    simp only [mergeChunk, List.length_append, List.length_singleton]
    omega

/-! ### Claims about the batch engine -/

/-- C3: for every per-strategy batch (completed or stopped, any cancellation
pattern), the number of stored trial records equals the stored played count,
the stored won count equals the number of stored trials won, and when
played > 0 the last winRateHistory entry carries winRate = won / played. -/
theorem spec_c3_batch_aggregation (strategy : String) (g cs : ℕ) (rng : ℕ → Fin 3 × ℕ)
    (running : ℕ → Bool) (hcs : 0 < cs) :
    (runStrategyBatch strategy g cs rng running).games.length
      = (runStrategyBatch strategy g cs rng running).played ∧
    (runStrategyBatch strategy g cs rng running).won
      = countWon (runStrategyBatch strategy g cs rng running).games ∧
    (0 < (runStrategyBatch strategy g cs rng running).played →
      ∃ q, (runStrategyBatch strategy g cs rng running).winRateHistory.getLast? = some q ∧
        q.gameNumber = (runStrategyBatch strategy g cs rng running).played ∧
        q.wins = (runStrategyBatch strategy g cs rng running).won ∧
        q.winRate = ((runStrategyBatch strategy g cs rng running).won : ℚ)
          / ((runStrategyBatch strategy g cs rng running).played : ℚ)) := by
  obtain ⟨hlen, hwon, hpts, hchain, hlast⟩ := runStrategyBatch_inv strategy g cs rng running hcs
  refine ⟨hlen, hwon, ?_⟩
  intro hpos
  rcases hlast with ⟨_, hzero⟩ | ⟨q, hq, hqg⟩
  · omega
  · obtain ⟨_, _, hw, hr⟩ := hpts q (List.mem_of_getLast?_eq_some hq)
    refine ⟨q, hq, hqg, ?_, ?_⟩
    · rw [hw, hqg, ← hlen, List.take_length, ← hwon]
    · rw [hr, hw, hqg, ← hlen, List.take_length, ← hwon, hlen]

/-- Witness for C3: two games of the stay strategy in chunks of one trial,
with the car always behind the chosen door 0, yield two stored wins and a
last history point at 2/2. -/
theorem spec_c3_batch_aggregation_witness :
    (0 < 1) ∧
    ((runStrategyBatch "stay" 2 1 (fun _ => (0, 0)) (fun _ => true)).games.length
      = (runStrategyBatch "stay" 2 1 (fun _ => (0, 0)) (fun _ => true)).played ∧
    (runStrategyBatch "stay" 2 1 (fun _ => (0, 0)) (fun _ => true)).won
      = countWon (runStrategyBatch "stay" 2 1 (fun _ => (0, 0)) (fun _ => true)).games ∧
    (0 < (runStrategyBatch "stay" 2 1 (fun _ => (0, 0)) (fun _ => true)).played →
      ∃ q, (runStrategyBatch "stay" 2 1 (fun _ => (0, 0)) (fun _ => true)).winRateHistory.getLast?
            = some q ∧
        q.gameNumber = (runStrategyBatch "stay" 2 1 (fun _ => (0, 0)) (fun _ => true)).played ∧
        q.wins = (runStrategyBatch "stay" 2 1 (fun _ => (0, 0)) (fun _ => true)).won ∧
        q.winRate = ((runStrategyBatch "stay" 2 1 (fun _ => (0, 0)) (fun _ => true)).won : ℚ)
          / ((runStrategyBatch "stay" 2 1 (fun _ => (0, 0)) (fun _ => true)).played : ℚ))) :=
  ⟨by decide, spec_c3_batch_aggregation "stay" 2 1 (fun _ => (0, 0)) (fun _ => true) (by decide)⟩

/-- C4 (amended): the batch appends one WinRatePoint per chunk, not per
trial: every point has a positive gameNumber equal to the cumulative played
count after its chunk, its wins recount the stored prefix of that length,
winRate = wins / gameNumber, the gameNumber sequence is strictly increasing,
and a completed run has exactly ⌈gameCount/chunkSize⌉ points. -/
theorem spec_c4_amended_history_per_chunk (strategy : String) (g cs : ℕ)
    (rng : ℕ → Fin 3 × ℕ) (running : ℕ → Bool) (hcs : 0 < cs) :
    (∀ p ∈ (runStrategyBatch strategy g cs rng running).winRateHistory,
       0 < p.gameNumber ∧
       p.wins = countWon ((runStrategyBatch strategy g cs rng running).games.take p.gameNumber) ∧
       p.winRate = (p.wins : ℚ) / (p.gameNumber : ℚ)) ∧
    List.Chain' (fun a b => a.gameNumber < b.gameNumber)
      (runStrategyBatch strategy g cs rng running).winRateHistory ∧
    (runStrategyBatch strategy g cs rng (fun _ => true)).winRateHistory.length
      = numChunks g cs := by
  obtain ⟨hlen, hwon, hpts, hchain, hlast⟩ := runStrategyBatch_inv strategy g cs rng running hcs
  refine ⟨?_, hchain, ?_⟩
  · intro p hp
    obtain ⟨h1, _, h3, h4⟩ := hpts p hp
    exact ⟨h1, h3, h4⟩
  · have := runBatchChunks_hist_length strategy g cs rng (numChunks g cs) 0 emptyStrategyResults
    simpa [runStrategyBatch, emptyStrategyResults] using this

/-- Witness for C4 (amended) at a concrete batch of 2 games in chunks of 2. -/
theorem spec_c4_amended_history_per_chunk_witness :
    (0 < 2) ∧
    ((∀ p ∈ (runStrategyBatch "stay" 2 2 (fun _ => (0, 0)) (fun _ => true)).winRateHistory,
       0 < p.gameNumber ∧
       p.wins = countWon ((runStrategyBatch "stay" 2 2 (fun _ => (0, 0))
          (fun _ => true)).games.take p.gameNumber) ∧
       p.winRate = (p.wins : ℚ) / (p.gameNumber : ℚ)) ∧
    List.Chain' (fun a b => a.gameNumber < b.gameNumber)
      (runStrategyBatch "stay" 2 2 (fun _ => (0, 0)) (fun _ => true)).winRateHistory ∧
    (runStrategyBatch "stay" 2 2 (fun _ => (0, 0)) (fun _ => true)).winRateHistory.length
      = numChunks 2 2) :=
  ⟨by decide,
   spec_c4_amended_history_per_chunk "stay" 2 2 (fun _ => (0, 0)) (fun _ => true) (by decide)⟩

/-- Counterexample to C4 as stated: a batch of 2 trials with chunkSize 2
stores a single WinRatePoint whose gameNumber starts at 2, not one point per
trial with gameNumber starting at 1. -/
theorem spec_c4_counterexample :
    (runStrategyBatch "stay" 2 2 (fun _ => (0, 0)) (fun _ => true)).played = 2 ∧
    ((runStrategyBatch "stay" 2 2 (fun _ => (0, 0)) (fun _ => true)).winRateHistory.map
       (fun p => p.gameNumber)) = [2] ∧
    ¬ ((runStrategyBatch "stay" 2 2 (fun _ => (0, 0)) (fun _ => true)).winRateHistory.length
        = (runStrategyBatch "stay" 2 2 (fun _ => (0, 0)) (fun _ => true)).played) := by
  decide

/-- C9: cancellation is observed only at chunk boundaries: a run stopped
after k chunk checks has played exactly min(k·chunkSize, gameCount) games
(k·chunkSize, or less only when the final partial chunk had already finished
the batch), its stored records and won count are fully aggregated, and
stopSimulation() leaves the simulator flag cleared. -/
theorem spec_c9_stop_at_chunk_boundary (strategy : String) (g cs k : ℕ)
    (rng : ℕ → Fin 3 × ℕ) (b : BatchSimulator) (hcs : 0 < cs) :
    (runStrategyBatch strategy g cs rng (fun t => decide (t < k))).played = min (k * cs) g ∧
    (runStrategyBatch strategy g cs rng (fun t => decide (t < k))).games.length
      = (runStrategyBatch strategy g cs rng (fun t => decide (t < k))).played ∧
    (runStrategyBatch strategy g cs rng (fun t => decide (t < k))).won
      = countWon (runStrategyBatch strategy g cs rng (fun t => decide (t < k))).games ∧
    (stopSimulation b).isRunning = false := by
  obtain ⟨hlen, hwon, _, _, _⟩ :=
    runStrategyBatch_inv strategy g cs rng (fun t => decide (t < k)) hcs
  have hp := runBatchChunks_played_stopped strategy g cs rng k hcs (numChunks g cs) 0
      emptyStrategyResults (by omega) (Nat.zero_le k) (by simp [emptyStrategyResults])
  refine ⟨?_, hlen, hwon, rfl⟩
  simpa [runStrategyBatch] using hp

/-- Witness for C9: gameCount 3, chunkSize 2, stop after 1 chunk: the batch
holds exactly min(2,3) = 2 fully aggregated games. -/
theorem spec_c9_stop_at_chunk_boundary_witness :
    (0 < 2) ∧
    ((runStrategyBatch "stay" 3 2 (fun _ => (0, 0)) (fun t => decide (t < 1))).played
        = min (1 * 2) 3 ∧
    (runStrategyBatch "stay" 3 2 (fun _ => (0, 0)) (fun t => decide (t < 1))).games.length
      = (runStrategyBatch "stay" 3 2 (fun _ => (0, 0)) (fun t => decide (t < 1))).played ∧
    (runStrategyBatch "stay" 3 2 (fun _ => (0, 0)) (fun t => decide (t < 1))).won
      = countWon (runStrategyBatch "stay" 3 2 (fun _ => (0, 0)) (fun t => decide (t < 1))).games ∧
    (stopSimulation { isRunning := true }).isRunning = false) :=
  ⟨by decide,
   spec_c9_stop_at_chunk_boundary "stay" 3 2 1 (fun _ => (0, 0)) { isRunning := true } (by decide)⟩

/-! ### Helper lemmas about the data map and the CSV rows -/

theorem length_flatMap_eq_sum {α β : Type} (l : List α) (f : α → List β) :
    (l.flatMap f).length = (l.map (fun s => (f s).length)).sum := by
  induction l with
  | nil => rfl
  | cons a tl ih =>
    simp only [List.flatMap_cons, List.length_append, List.map_cons, List.sum_cons, ih]

theorem allCounted_dataUpdate (s : String) (v : StrategyResults)
    (hv : v.games.length = v.played) :
    ∀ d : List (String × StrategyResults), AllCounted d → AllCounted (dataUpdate d s v) := by
  intro d
  induction d with
  | nil =>
    intro _ kv hkv
    simp only [dataUpdate, List.mem_singleton] at hkv
    subst hkv
    exact hv
  | cons head tl ih =>
    intro hd kv hkv
    obtain ⟨key, w⟩ := head
    simp only [dataUpdate] at hkv
    by_cases hk : key = s
    · rw [if_pos hk] at hkv
      rcases List.mem_cons.mp hkv with h | h
      · subst h
        exact hv
      · exact hd kv (List.mem_cons_of_mem _ h)
    · rw [if_neg hk] at hkv
      rcases List.mem_cons.mp hkv with h | h
      · subst h
        exact hd _ (List.mem_cons_self _ _)
      · exact ih (fun kv2 h2 => hd kv2 (List.mem_cons_of_mem _ h2)) kv h

theorem allCounted_foldl (chunkSize gamesPerStrategy : ℕ) (rng : ℕ → ℕ → Fin 3 × ℕ)
    (running : ℕ → Bool) (hcs : 0 < chunkSize) :
    ∀ (l : List (ℕ × String)) (d : List (String × StrategyResults)), AllCounted d →
      AllCounted (l.foldl (fun d2 si => dataUpdate d2 si.2
        (runStrategyBatch si.2 gamesPerStrategy chunkSize (rng si.1) running)) d) := by
  intro l
  induction l with
  | nil =>
    intro d hd
    exact hd
  | cons si tl ih =>
    intro d hd
    exact ih _ (allCounted_dataUpdate _ _
      (runStrategyBatch_inv si.2 gamesPerStrategy chunkSize (rng si.1) running hcs).1 _ hd)

theorem lookup_counted {d : List (String × StrategyResults)} (hd : AllCounted d) (s : String) :
    ((dataLookup d s).getD emptyStrategyResults).games.length
      = ((dataLookup d s).getD emptyStrategyResults).played := by
  unfold dataLookup
  cases hfind : d.find? (fun kv => decide (kv.1 = s)) with
  | none => rfl
  | some kv => exact hd kv (List.mem_of_find?_eq_some hfind)

theorem exportRows_length (strategy : String) (b : StrategyResults) :
    (exportRowsForStrategy strategy b).length = b.games.length := by
  simp [exportRowsForStrategy]

/-! ### Claim about the CSV export -/

/-- C5 (amended): the CSV header is the fixed line of the claim; the export
has one row per stored trial (the row count is the sum of the per-strategy
played counts); but a row's WinRate column is not the cumulative rate right
after that trial: it is the rate of the first winRateHistory point at or
after the row's ordinal, i.e. the cumulative rate at the end of the chunk
containing the trial (these agree only when chunkSize = 1). -/
theorem spec_c5_amended_csv :
    csvHeader = "Game,Strategy,PlayerChoice,HostRevealed,FinalChoice,CarDoor,Won,WinRate" ∧
    (∀ (totalGames : ℤ) (strategies : List String) (chunkSize : ℕ)
       (rng : ℕ → ℕ → Fin 3 × ℕ) (running : ℕ → Bool) (r : SimulationResults),
       0 < chunkSize →
       runSimulation false totalGames strategies chunkSize rng running = Except.ok r →
       (exportToCsv r).length =
         (r.strategies.map
           (fun s => ((dataLookup r.data s).getD emptyStrategyResults).played)).sum) ∧
    (∀ (strategy : String) (g cs : ℕ) (rng : ℕ → Fin 3 × ℕ) (running : ℕ → Bool)
       (i : ℕ) (row : CsvRow), 0 < cs →
       (exportRowsForStrategy strategy (runStrategyBatch strategy g cs rng running))[i]?
         = some row →
       ∃ q, (runStrategyBatch strategy g cs rng running).winRateHistory.find?
              (fun h => decide (i + 1 ≤ h.gameNumber)) = some q ∧
            row.winRate = q.winRate ∧ i + 1 ≤ q.gameNumber ∧
            q.wins = countWon ((runStrategyBatch strategy g cs rng running).games.take
              q.gameNumber) ∧
            q.winRate = (q.wins : ℚ) / (q.gameNumber : ℚ)) := by
  refine ⟨rfl, ?_, ?_⟩
  · intro totalGames strategies chunkSize rng running r hcs heq
    simp only [runSimulation, Bool.false_eq_true, if_false, Except.ok.injEq] at heq
    subst heq
    have hall := allCounted_foldl chunkSize
      ((Int.fdiv totalGames (strategies.length : ℤ)).toNat) rng running hcs
      strategies.enum [("stay", emptyStrategyResults), ("switch", emptyStrategyResults)]
      (by
        intro kv hkv
        rcases List.mem_cons.mp hkv with h | h
        · subst h; rfl
        · rcases List.mem_cons.mp h with h2 | h2
          · subst h2; rfl
          · simp at h2)
    simp only [exportToCsv]
    rw [length_flatMap_eq_sum]
    congr 1
    apply List.map_congr_left
    intro s _
    rw [exportRows_length]
    exact lookup_counted hall s
  · intro strategy g cs rng running i row hcs hrow
    obtain ⟨hlen, hwon, hpts, hchain, hlast⟩ := runStrategyBatch_inv strategy g cs rng running hcs
    have hrowlen : i < (exportRowsForStrategy strategy
        (runStrategyBatch strategy g cs rng running)).length := by
      rcases List.getElem?_eq_some_iff.mp hrow with ⟨h, _⟩
      exact h
    rw [exportRows_length] at hrowlen
    rcases hlast with ⟨_, hzero⟩ | ⟨q0, hq0, hq0g⟩
    · omega
    · have hq0mem := List.mem_of_getLast?_eq_some hq0
      have hsome : ((runStrategyBatch strategy g cs rng running).winRateHistory.find?
          (fun h => decide (i + 1 ≤ h.gameNumber))).isSome := by
        rw [List.find?_isSome]
        refine ⟨q0, hq0mem, ?_⟩
        simp only [decide_eq_true_eq]
        omega
      obtain ⟨q, hq⟩ := Option.isSome_iff_exists.mp hsome
      have hqpred : i + 1 ≤ q.gameNumber := by
        simpa using List.find?_some hq
      have hqmem := List.mem_of_find?_eq_some hq
      obtain ⟨_, _, hqw, hqr⟩ := hpts q hqmem
      refine ⟨q, hq, ?_, hqpred, hqw, hqr⟩
      rcases hg : (runStrategyBatch strategy g cs rng running).games[i]? with _ | game
      · rw [List.getElem?_eq_none_iff] at hg
        omega
      · simp only [exportRowsForStrategy, List.getElem?_map, List.enum,
          List.getElem?_enumFrom, hg, Option.map_some', Nat.zero_add,
          Option.some.injEq] at hrow
        rw [← hrow]
        simp only [hq, Option.map_some', Option.getD_some]

/-- Witness for C5 (amended): the empty-strategies run gives a result whose
export has 0 rows, and the first row of a 1-game stay batch carries the win
rate of its (single) chunk point. -/
theorem spec_c5_amended_csv_witness :
    (0 < 1) ∧
    ((exportToCsv ({ totalGames := 0, strategies := [],
                     data := [("stay", emptyStrategyResults), ("switch", emptyStrategyResults)] }
          : SimulationResults)).length =
      ((({ totalGames := 0, strategies := [],
           data := [("stay", emptyStrategyResults), ("switch", emptyStrategyResults)] }
            : SimulationResults).strategies).map
        (fun s => ((dataLookup ({ totalGames := 0, strategies := [],
                                  data := [("stay", emptyStrategyResults),
                                           ("switch", emptyStrategyResults)] }
              : SimulationResults).data s).getD
          emptyStrategyResults).played)).sum) ∧
    (∃ q, (runStrategyBatch "stay" 1 1 (fun _ => (0, 0)) (fun _ => true)).winRateHistory.find?
            (fun h => decide (0 + 1 ≤ h.gameNumber)) = some q ∧
          ({ game := 1, strategy := "stay", playerChoice := some 0, hostRevealed := some 1,
             finalChoice := some 0, carDoor := 0, won := some true,
             winRate := ((1 : ℕ) : ℚ) / ((1 : ℕ) : ℚ) } : CsvRow).winRate
            = q.winRate ∧ 0 + 1 ≤ q.gameNumber ∧
          q.wins = countWon ((runStrategyBatch "stay" 1 1 (fun _ => (0, 0))
            (fun _ => true)).games.take q.gameNumber) ∧
          q.winRate = (q.wins : ℚ) / (q.gameNumber : ℚ)) :=
  ⟨by decide,
   spec_c5_amended_csv.2.1 0 [] 1 (fun _ _ => (0, 0)) (fun _ => true)
     { totalGames := 0, strategies := [],
       data := [("stay", emptyStrategyResults), ("switch", emptyStrategyResults)] }
     (by decide) rfl,
   spec_c5_amended_csv.2.2 "stay" 1 1 (fun _ => (0, 0)) (fun _ => true) 0
     { game := 1, strategy := "stay", playerChoice := some 0, hostRevealed := some 1,
       finalChoice := some 0, carDoor := 0, won := some true,
       winRate := ((1 : ℕ) : ℚ) / ((1 : ℕ) : ℚ) }
     (by decide) rfl⟩

/-- Counterexample to C5 as stated: in a 2-trial batch run as one chunk of 2
where the first trial wins and the second loses, the first CSV row shows
WinRate 1/2 (the chunk-end rate) although the cumulative win rate
immediately after the first trial is 1/1. -/
theorem spec_c5_counterexample :
    ((exportRowsForStrategy "stay"
        (runStrategyBatch "stay" 2 2 (fun i => (if i = 0 then (0 : Fin 3) else 1, 0))
          (fun _ => true)))[0]?).map (fun row => row.winRate) = some (1/2) ∧
    countWon ((runStrategyBatch "stay" 2 2 (fun i => (if i = 0 then (0 : Fin 3) else 1, 0))
        (fun _ => true)).games.take 1) = 1 ∧
    ¬ (((exportRowsForStrategy "stay"
        (runStrategyBatch "stay" 2 2 (fun i => (if i = 0 then (0 : Fin 3) else 1, 0))
          (fun _ => true)))[0]?).map (fun row => row.winRate) =
        some ((countWon ((runStrategyBatch "stay" 2 2
            (fun i => (if i = 0 then (0 : Fin 3) else 1, 0))
            (fun _ => true)).games.take 1) : ℚ) / (1 : ℚ))) := by
  have h1 : ((exportRowsForStrategy "stay"
      (runStrategyBatch "stay" 2 2 (fun i => (if i = 0 then (0 : Fin 3) else 1, 0))
        (fun _ => true)))[0]?).map (fun row => row.winRate)
      = some (((1 : ℕ) : ℚ) / ((2 : ℕ) : ℚ)) := rfl
  have h2 : countWon ((runStrategyBatch "stay" 2 2
      (fun i => (if i = 0 then (0 : Fin 3) else 1, 0))
      (fun _ => true)).games.take 1) = 1 := by decide
  have h3 : (((1 : ℕ) : ℚ) / ((2 : ℕ) : ℚ)) = 1/2 := by norm_num
  refine ⟨by rw [h1, h3], h2, ?_⟩
  rw [h1, h2]
  intro hcontra
  rw [Option.some_inj] at hcontra
  norm_num at hcontra

/-! ### Claims about run validation and the statistics layer -/

/-- C7 (amended): runSimulation validates nothing beyond the running flag:
with no run in progress it produces a result for every totalGames, every
strategies list and every positive chunkSize, and it fails exactly when a
run is already in progress. -/
theorem spec_c7_amended_no_validation (isRunning : Bool) (totalGames : ℤ)
    (strategies : List String) (chunkSize : ℕ) (rng : ℕ → ℕ → Fin 3 × ℕ)
    (running : ℕ → Bool) (_hcs : 0 < chunkSize) :
    (runSimulation isRunning totalGames strategies chunkSize rng running).toOption.isSome
      = !isRunning := by
  cases isRunning <;> rfl

/-- Witness for C7 (amended) at the defaults totalGames 1000, chunkSize 100. -/
theorem spec_c7_amended_no_validation_witness :
    (0 < 100) ∧
    (runSimulation false 1000 ["stay"] 100 (fun _ _ => (0, 0)) (fun _ => true)).toOption.isSome
      = !false :=
  ⟨by decide,
   spec_c7_amended_no_validation false 1000 ["stay"] 100 (fun _ _ => (0, 0)) (fun _ => true)
     (by decide)⟩

/-- Counterexample to C7 as stated: totalGames = 0 produces a result instead
of an InvalidArgument failure, and the unknown strategy "banana" not only
fails to fail: it generates (and stores) 2 trials. -/
theorem spec_c7_counterexample :
    (runSimulation false 0 ["stay"] 100 (fun _ _ => (0, 0)) (fun _ => true)).toOption.isSome
        = true ∧
    ((runSimulation false 2 ["banana"] 1 (fun _ _ => (0, 0)) (fun _ => true)).toOption.map
       (fun r => (dataLookup r.data "banana").map (fun b => b.played))) = some (some 2) := by
  constructor
  · rfl
  · decide

theorem getZScore_pos (confidence : ℚ) : 0 < getZScore confidence := by
  unfold getZScore
  split_ifs <;> norm_num

/-- C6 (amended): the statistics.js confidence interval is clipped and
satisfies 0 ≤ lower ≤ p ≤ upper ≤ 1 with marginOfError = z·sqrt(p(1-p)/n),
and its call never fails; but the interval the batch statistics store
(ui.js calculateStatistics) is the UNclipped p ± 1.96·SE (see the
counterexample for a violation of 0 ≤ lower). -/
theorem spec_c6_amended_ci_clipped (p : ℝ) (n : ℕ) (confidence : ℚ) (theoretical : ℝ)
    (hp0 : 0 ≤ p) (hp1 : p ≤ 1) (_hn : 0 < n) :
    (0 ≤ (calculateConfidenceIntervalVal p n confidence).lower ∧
     (calculateConfidenceIntervalVal p n confidence).lower ≤ p ∧
     p ≤ (calculateConfidenceIntervalVal p n confidence).upper ∧
     (calculateConfidenceIntervalVal p n confidence).upper ≤ 1 ∧
     (calculateConfidenceIntervalVal p n confidence).marginOfError
       = getZScore confidence * Real.sqrt ((p * (1 - p)) / (n : ℝ)) ∧
     calculateConfidenceInterval p n confidence
       = Except.ok (calculateConfidenceIntervalVal p n confidence)) ∧
    ((uiConfidenceInterval p n theoretical).lower
       = p - 1.96 * Real.sqrt ((p * (1 - p)) / (n : ℝ)) ∧
     (uiConfidenceInterval p n theoretical).upper
       = p + 1.96 * Real.sqrt ((p * (1 - p)) / (n : ℝ))) := by
  have hz : 0 < getZScore confidence := getZScore_pos confidence
  have hs : 0 ≤ Real.sqrt ((p * (1 - p)) / (n : ℝ)) := Real.sqrt_nonneg _
  have hmoe : 0 ≤ getZScore confidence * Real.sqrt ((p * (1 - p)) / (n : ℝ)) :=
    mul_nonneg hz.le hs
  unfold calculateConfidenceIntervalVal
  dsimp only
  refine ⟨⟨le_max_left _ _, max_le hp0 (by linarith), le_min hp1 (by linarith),
    min_le_left _ _, rfl, rfl⟩, rfl, rfl⟩

/-- Witness for C6 (amended) at p = 1/2, n = 2, 95% confidence. -/
theorem spec_c6_amended_ci_clipped_witness :
    ((0:ℝ) ≤ 1/2) ∧ ((1/2:ℝ) ≤ 1) ∧ (0 < 2) ∧
    ((0 ≤ (calculateConfidenceIntervalVal (1/2) 2 (95/100)).lower ∧
     (calculateConfidenceIntervalVal (1/2) 2 (95/100)).lower ≤ 1/2 ∧
     (1/2:ℝ) ≤ (calculateConfidenceIntervalVal (1/2) 2 (95/100)).upper ∧
     (calculateConfidenceIntervalVal (1/2) 2 (95/100)).upper ≤ 1 ∧
     (calculateConfidenceIntervalVal (1/2) 2 (95/100)).marginOfError
       = getZScore (95/100) * Real.sqrt (((1/2:ℝ) * (1 - 1/2)) / ((2:ℕ) : ℝ)) ∧
     calculateConfidenceInterval (1/2) 2 (95/100)
       = Except.ok (calculateConfidenceIntervalVal (1/2) 2 (95/100))) ∧
    ((uiConfidenceInterval (1/2) 2 (1/3)).lower
       = 1/2 - 1.96 * Real.sqrt (((1/2:ℝ) * (1 - 1/2)) / ((2:ℕ) : ℝ)) ∧
     (uiConfidenceInterval (1/2) 2 (1/3)).upper
       = 1/2 + 1.96 * Real.sqrt (((1/2:ℝ) * (1 - 1/2)) / ((2:ℕ) : ℝ)))) :=
  ⟨by norm_num, by norm_num, by decide,
   spec_c6_amended_ci_clipped (1/2) 2 (95/100) (1/3) (by norm_num) (by norm_num) (by decide)⟩

/-- Counterexample to C6 as stated: the interval the batch statistics store
(ui.js) is not clipped: for a batch with winRate 1/3 over 3 games its lower
bound is negative, violating 0 ≤ lower. -/
theorem spec_c6_counterexample :
    (uiConfidenceInterval (1/3) 3 (1/3)).lower < 0 := by
  have h0 : ((1:ℝ)/3 * (1 - 1/3)) / ((3:ℕ) : ℝ) = 2/27 := by norm_num
  have h1 : (1/5 : ℝ) < Real.sqrt (2/27) :=
    (Real.lt_sqrt (by norm_num : (0:ℝ) ≤ 1/5)).mpr (by norm_num : ((1:ℝ)/5)^2 < 2/27)
  have h2 : (1.96:ℝ) * (1/5) < 1.96 * Real.sqrt (2/27) := by
    apply mul_lt_mul_of_pos_left h1
    norm_num
  show (1:ℝ)/3 - 1.96 * Real.sqrt (((1:ℝ)/3 * (1 - 1/3)) / ((3:ℕ) : ℝ)) < 0
  rw [h0]
  linarith

/-- C8 (amended): no statistic fails at n = 0; calculateConfidenceInterval
and performZTest contain no InsufficientSample check (nor any throw) and
return a value for every sample size, including n = 0. -/
theorem spec_c8_amended_no_failure (p e : ℝ) (n : ℕ) (confidence : ℚ) :
    (calculateConfidenceInterval p n confidence).toOption.isSome = true ∧
    (performZTest p n e).toOption.isSome = true :=
  ⟨rfl, rfl⟩

/-- Counterexample to C8 as stated: at n = 0 both statistics still return a
value (in JS an object with NaN components) instead of failing with
InsufficientSample. -/
theorem spec_c8_counterexample :
    (calculateConfidenceInterval (1/2) 0 (95/100)).toOption.isSome = true ∧
    (performZTest (1/2) 0 (1/3)).toOption.isSome = true :=
  ⟨rfl, rfl⟩

end MontyHall
